import Mathlib

/-!
Verification development for the client-side password-vault core
(`src/utils/crypto.ts`, `src/utils/storage.ts`, `src/utils/passwordGenerator.ts`,
`src/components/PasswordVault.js`).

Modelling conventions:
* Bytes are `Nat` (meaningful values are `< 256`); byte strings are `List Nat`.
* PBKDF2 key derivation is modelled symbolically: `deriveKey` is a free
  constructor of the passphrase and salt (PBKDF2 is deterministic, and the
  model idealises it as collision-free).  The source performs no validation
  and WebCrypto PBKDF2 accepts salts of any length, so derivation never fails;
  `deriveKeyE` wraps the result in `Except` to mirror the promise-based API.
* AES-GCM is modelled as an ideal AEAD: `Ct.enc data key iv` is the
  ciphertext produced by `crypto.subtle.encrypt`; decryption succeeds exactly
  when the key and IV match, and fails (authentication-tag mismatch) on any
  other value, including `Ct.mk s`, which stands for an arbitrary string that
  is not a well-formed ciphertext (e.g. the `''` sentinel or tampered data).
* `btoa` / `atob` (used by `arrayBufferToBase64` / `base64ToArrayBuffer`)
  are implemented concretely, following the forgiving-base64 algorithm that
  browsers implement (strip ASCII whitespace, strip `=` padding, reject
  non-alphabet characters, reject length ≡ 1 mod 4).
* Thrown exceptions / rejected promises are modelled with `Except CErr`.
* Fresh randomness (`crypto.getRandomValues`, `Math.random`) is passed in as
  an explicit argument standing for the drawn value.
-/

/-- Error taxonomy for the modelled exception paths. -/
inductive CErr where
  /-- `atob` rejected a malformed base64 string (InvalidCharacterError). -/
  | invalidChar : CErr
  /-- AES-GCM authentication failure (wrong key, wrong IV, or corrupted data). -/
  | decryptionError : CErr
deriving DecidableEq, Repr

/- ------------------------------------------------------------------ -/
/- Base64: model of the platform `btoa` / `atob` used by
   `arrayBufferToBase64`, `base64ToArrayBuffer`, `base64ToUint8Array`. -/

/-- The standard base64 alphabet. -/
def b64Alphabet : String :=
  "ABCDEFGHIJKLMNOPQRSTUVWXYZabcdefghijklmnopqrstuvwxyz0123456789+/"

/-- Character of the base64 alphabet at index `n`. -/
def b64Char (n : Nat) : Char := b64Alphabet.data.getD n 'A'

/-- Index of a character in the base64 alphabet, `none` if absent. -/
def b64Index (c : Char) : Option Nat := b64Alphabet.data.findIdx? (fun x => x == c)

/-- ASCII whitespace, which forgiving-base64 decoding removes. -/
def isB64Ws (c : Char) : Bool :=
  c == ' ' || c == '\t' || c == '\n' || c == '\r' || c == '\x0c'

/-- Big-endian split of a byte list into base64 sextets (without padding). -/
def toSextets : List Nat → List Nat
  | b1 :: b2 :: b3 :: rest =>
      b1 / 4 :: ((b1 % 4) * 16 + b2 / 16) :: ((b2 % 16) * 4 + b3 / 64) :: (b3 % 64)
        :: toSextets rest
  | [b1, b2] => [b1 / 4, (b1 % 4) * 16 + b2 / 16, (b2 % 16) * 4]
  | [b1] => [b1 / 4, (b1 % 4) * 16]
  | [] => []

/-- Number of `=` padding characters appended by base64 encoding. -/
def padCount (l : List Nat) : Nat := (3 - l.length % 3) % 3

/-- Model of `btoa` applied to the binary string built from a byte list
    (the composite `arrayBufferToBase64`). -/
def btoaBytes (l : List Nat) : String :=
  String.mk ((toSextets l).map b64Char ++ List.replicate (padCount l) '=')

/-- Reassemble bytes from base64 sextets (the inverse direction).
    A trailing group of 2 sextets yields 1 byte, of 3 sextets 2 bytes.
    A trailing single sextet cannot occur (rejected before this is called). -/
def sextetsToBytes : List Nat → List Nat
  | s1 :: s2 :: s3 :: s4 :: rest =>
      (s1 * 4 + s2 / 16) :: ((s2 % 16) * 16 + s3 / 4) :: ((s3 % 4) * 64 + s4)
        :: sextetsToBytes rest
  | [s1, s2, s3] => [s1 * 4 + s2 / 16, (s2 % 16) * 16 + s3 / 4]
  | [s1, s2] => [s1 * 4 + s2 / 16]
  | _ => []

/-- Forgiving-base64 padding removal: when the length is a multiple of 4,
    strip one or two trailing `=` characters. -/
def dropPad (cs : List Char) : List Char :=
  if cs.length % 4 == 0 then
    match cs.reverse with
    | '=' :: '=' :: rest => rest.reverse
    | '=' :: rest => rest.reverse
    | _ => cs
  else cs

/-- Model of `atob` followed by reading the binary string into bytes
    (the composite `base64ToArrayBuffer` / `base64ToUint8Array`);
    `none` models the thrown InvalidCharacterError. -/
def atobBytes (s : String) : Option (List Nat) :=
  let cs := dropPad (s.data.filter (fun c => !(isB64Ws c)))
  if cs.length % 4 == 1 then none
  else if cs.all (fun c => (b64Index c).isSome) then
    some (sextetsToBytes (cs.map (fun c => (b64Index c).getD 0)))
  else none

/-- `atobBytes` as the exception-style operation used inside `try` blocks. -/
def atobBytesE (s : String) : Except CErr (List Nat) :=
  match atobBytes s with
  | some l => Except.ok l
  | none => Except.error CErr.invalidChar

/- ------------------------------------------------------------------ -/
/- Crypto core (`src/utils/crypto.ts`). -/

/-- Constant from `constants/config.ts`. -/
def PBKDF2_ITERATIONS : Nat := 100000

/-- Constant from `constants/config.ts`. -/
def KEY_LENGTH : Nat := 256

/-- Constant from `constants/config.ts`: IV length in bytes (96 bits). -/
def IV_LENGTH : Nat := 12

/-- Constant from `constants/config.ts`: salt length in bytes. -/
def SALT_LENGTH : Nat := 16

/-- Symbolic model of a `CryptoKey` produced by PBKDF2 (`deriveKey`):
    determined exactly by the master password and the salt. -/
inductive Key where
  | derived (masterPassword : String) (salt : List Nat)
deriving DecidableEq, Repr

/-- Model of `deriveKey` (crypto.ts line 36): PBKDF2-SHA256, 100000
    iterations, 256-bit AES-GCM key.  The source performs no check on the
    salt (in particular no length check), so the function is total. -/
def deriveKey (masterPassword : String) (salt : List Nat) : Key :=
  Key.derived masterPassword salt

/-- `deriveKey` as the promise-style operation: the source has no failure
    path (it never validates the salt), so this always returns `ok`. -/
def deriveKeyE (masterPassword : String) (salt : List Nat) : Except CErr Key :=
  Except.ok (deriveKey masterPassword salt)

/-- Symbolic AES-GCM ciphertext (stored as a base64 string by the source).
    `enc data key iv` is the output of `encryptData data key iv`;
    `mk s` is any other string (the `''` notes sentinel, corrupted data, …),
    which AES-GCM decryption always rejects. -/
inductive Ct where
  | enc (data : String) (key : Key) (iv : List Nat)
  | mk (s : String)
deriving DecidableEq, Repr

/-- Model of `encryptData` (crypto.ts line 71): AES-GCM encryption of the
    UTF-8 bytes of `data` under `key` and `iv`, returned base64-encoded. -/
def encryptData (data : String) (key : Key) (iv : List Nat) : Ct :=
  Ct.enc data key iv

/-- Model of `decryptData` (crypto.ts line 93): AES-GCM decryption; fails
    (authentication-tag mismatch) unless the ciphertext was produced under
    exactly this key and IV. -/
def decryptData (encryptedData : Ct) (key : Key) (iv : List Nat) : Except CErr String :=
  match encryptedData with
  | Ct.enc d k i => if k = key ∧ i = iv then Except.ok d else Except.error CErr.decryptionError
  | Ct.mk _ => Except.error CErr.decryptionError

/-- JS truthiness of an optional string field (`undefined` and `''` are falsy). -/
def strTruthy : Option String → Bool
  | none => false
  | some s => s ≠ ""

/-- JS truthiness of a ciphertext value viewed as a string.  A real AES-GCM
    ciphertext is never the empty string (it contains a 16-byte tag), so an
    `enc` value is always truthy. -/
def Ct.truthy : Ct → Bool
  | Ct.enc _ _ _ => true
  | Ct.mk s => s ≠ ""

/-- JS truthiness of the optional encrypted `notes` field. -/
def optCtTruthy : Option Ct → Bool
  | none => false
  | some c => c.truthy

/-- `PasswordEntry` (types.ts): the transient plaintext record. -/
structure PasswordEntry where
  id : String
  title : String
  username : Option String
  password : String
  url : Option String
  notes : Option String
  createdAt : Nat
  updatedAt : Option Nat
deriving DecidableEq, Repr

/-- `EncryptedPasswordEntry` (types.ts): the persisted record; `password`
    and `notes` hold ciphertext, `iv` the base64 of the record's IV. -/
structure EncryptedPasswordEntry where
  id : String
  title : String
  username : Option String
  password : Ct
  url : Option String
  notes : Option Ct
  iv : String
  createdAt : Nat
  updatedAt : Option Nat
deriving DecidableEq, Repr

/-- Model of `encryptPasswordEntry` (crypto.ts line 114).  The `iv`
    argument stands for the fresh random value returned by `generateIV()`:
    12 bytes, each `< 256`.  Note that the single `iv` is used for both the
    password and the notes, and that absent/empty notes are stored as the
    (present) empty-string sentinel. -/
def encryptPasswordEntry (entry : PasswordEntry) (key : Key) (iv : List Nat) :
    EncryptedPasswordEntry :=
  let encryptedPassword := encryptData entry.password key iv
  let encryptedNotes : Option Ct :=
    match entry.notes with
    | some s => if s ≠ "" then some (encryptData s key iv) else some (Ct.mk "")
    | none => some (Ct.mk "")
  { id := entry.id, title := entry.title, username := entry.username,
    password := encryptedPassword, url := entry.url, notes := encryptedNotes,
    iv := btoaBytes iv, createdAt := entry.createdAt, updatedAt := entry.updatedAt }

/-- Model of `decryptPasswordEntry` (crypto.ts line 134): decode the IV,
    decrypt the password, decrypt the notes when truthy (else `''`). -/
def decryptPasswordEntry (encryptedEntry : EncryptedPasswordEntry) (key : Key) :
    Except CErr PasswordEntry := do
  let iv ← atobBytesE encryptedEntry.iv
  let password ← decryptData encryptedEntry.password key iv
  let notes ←
    match encryptedEntry.notes with
    | some c => if c.truthy then decryptData c key iv else Except.ok ""
    | none => Except.ok ""
  Except.ok
    { id := encryptedEntry.id, title := encryptedEntry.title,
      username := encryptedEntry.username, password := password,
      url := encryptedEntry.url, notes := some notes,
      createdAt := encryptedEntry.createdAt, updatedAt := encryptedEntry.updatedAt }

/-- Exception-style body of `verifyMasterPassword` (crypto.ts line 155):
    decode the salt, derive the candidate key, and if the vault is nonempty
    try to decrypt its first entry. -/
def verifyMasterPasswordE (masterPassword vaultSalt : String)
    (vaultData : List EncryptedPasswordEntry) : Except CErr Bool := do
  let salt ← atobBytesE vaultSalt
  let key ← deriveKeyE masterPassword salt
  match vaultData with
  | [] => Except.ok true
  | e :: _ => do
      let _ ← decryptPasswordEntry e key
      Except.ok true

/-- Model of `verifyMasterPassword`: the surrounding `try`/`catch` converts
    every thrown error into `false`. -/
def verifyMasterPassword (masterPassword vaultSalt : String)
    (vaultData : List EncryptedPasswordEntry) : Bool :=
  match verifyMasterPasswordE masterPassword vaultSalt vaultData with
  | Except.ok b => b
  | Except.error _ => false

/-- Boolean success test for an `Except` result. -/
def isOkB {ε α : Type} : Except ε α → Bool
  | Except.ok _ => true
  | Except.error _ => false

/- ------------------------------------------------------------------ -/
/- Vault load (`src/components/PasswordVault.js`, `loadPasswords`). -/

/-- Model of the `loadPasswords` loop (PasswordVault.js line 18): decrypt
    each stored entry in order, keeping the successes and skipping every
    entry whose decryption throws. -/
def loadPasswords (encryptedPasswords : List EncryptedPasswordEntry) (encryptionKey : Key) :
    List PasswordEntry :=
  match encryptedPasswords with
  | [] => []
  | e :: rest =>
      match decryptPasswordEntry e encryptionKey with
      | Except.ok d => d :: loadPasswords rest encryptionKey
      | Except.error _ => loadPasswords rest encryptionKey

/- ------------------------------------------------------------------ -/
/- Vault store (`src/utils/storage.ts`). -/

/-- The persisted vault-data array, plus a write counter recording how many
    times `setVaultData` has written to localStorage. -/
structure VaultStore where
  data : List EncryptedPasswordEntry
  writeCount : Nat
deriving DecidableEq, Repr

/-- Model of `getVaultData` (storage.ts line 124). -/
def getVaultData (store : VaultStore) : List EncryptedPasswordEntry := store.data

/-- Model of `setVaultData` (storage.ts line 133): persist the array and
    report success (quota failures are out of scope of the modelled claims). -/
def setVaultData (data : List EncryptedPasswordEntry) (store : VaultStore) :
    Bool × VaultStore :=
  (true, { data := data, writeCount := store.writeCount + 1 })

/-- Model of `Array.prototype.findIndex`, returning `none` instead of `-1`. -/
def findIndex {α : Type} (p : α → Bool) : List α → Option Nat
  | [] => none
  | a :: l => if p a then some 0 else (findIndex p l).map (· + 1)

/-- A `Partial<EncryptedPasswordEntry>`: each field optionally overridden. -/
structure EntryPatch where
  id : Option String := none
  title : Option String := none
  username : Option (Option String) := none
  password : Option Ct := none
  url : Option (Option String) := none
  notes : Option (Option Ct) := none
  iv : Option String := none
  createdAt : Option Nat := none
  updatedAt : Option (Option Nat) := none
deriving DecidableEq, Repr

/-- The spread `{ ...old, ...patch, updatedAt: Date.now() }` used by
    `updatePasswordEntry`. -/
def mergeEntry (old : EncryptedPasswordEntry) (p : EntryPatch) (now : Nat) :
    EncryptedPasswordEntry :=
  { id := p.id.getD old.id, title := p.title.getD old.title,
    username := p.username.getD old.username,
    password := p.password.getD old.password,
    url := p.url.getD old.url, notes := p.notes.getD old.notes,
    iv := p.iv.getD old.iv, createdAt := p.createdAt.getD old.createdAt,
    updatedAt := some now }

/-- Model of `updatePasswordEntry` (storage.ts line 154): locate the first
    entry with the given id; when absent return `false` without writing;
    otherwise replace that one entry in place and write the array back. -/
def updatePasswordEntry (id : String) (updatedEntry : EntryPatch) (now : Nat)
    (store : VaultStore) : Bool × VaultStore :=
  let vaultData := getVaultData store
  match findIndex (fun entry => entry.id == id) vaultData with
  | none => (false, store)
  | some index =>
      match vaultData[index]? with
      | none => (false, store)
      | some old => setVaultData (vaultData.set index (mergeEntry old updatedEntry now)) store

/- ------------------------------------------------------------------ -/
/- Password generator (`src/utils/passwordGenerator.ts`). -/

/-- Constant from `constants/config.ts`. -/
def DEFAULT_PASSWORD_LENGTH : Nat := 16

/-- Constant from `constants/config.ts`. -/
def MIN_PASSWORD_GEN_LENGTH : Nat := 8

/-- Constant from `constants/config.ts`. -/
def MAX_PASSWORD_GEN_LENGTH : Nat := 64

/-- `CHARACTER_SETS.lowercase`. -/
def lowercaseChars : String := "abcdefghijklmnopqrstuvwxyz"

/-- `CHARACTER_SETS.uppercase`. -/
def uppercaseChars : String := "ABCDEFGHIJKLMNOPQRSTUVWXYZ"

/-- `CHARACTER_SETS.numbers`. -/
def numberChars : String := "0123456789"

/-- `CHARACTER_SETS.symbols`. -/
def symbolChars : String := "!@#$%^&*()_+-=[]\x7b\x7d|;:,.<>?"

/-- `AMBIGUOUS_CHARS`. -/
def ambiguousChars : String := "0O1lI|"

/-- `PasswordConfig` (types.ts). -/
structure PasswordConfig where
  length : Nat
  includeLowercase : Bool
  includeUppercase : Bool
  includeNumbers : Bool
  includeSymbols : Bool
  excludeAmbiguous : Bool
deriving DecidableEq, Repr

/-- A `Partial<PasswordConfig>` as accepted by `generatePassword`. -/
structure PartialPasswordConfig where
  length : Option Nat := none
  includeLowercase : Option Bool := none
  includeUppercase : Option Bool := none
  includeNumbers : Option Bool := none
  includeSymbols : Option Bool := none
  excludeAmbiguous : Option Bool := none
deriving DecidableEq, Repr

/-- `DEFAULT_CONFIG` (passwordGenerator.ts line 22). -/
def DEFAULT_CONFIG : PasswordConfig :=
  { length := DEFAULT_PASSWORD_LENGTH, includeLowercase := true,
    includeUppercase := true, includeNumbers := true, includeSymbols := true,
    excludeAmbiguous := false }

/-- The spread `{ ...DEFAULT_CONFIG, ...config }`. -/
def mergeConfig (config : PartialPasswordConfig) : PasswordConfig :=
  { length := config.length.getD DEFAULT_CONFIG.length,
    includeLowercase := config.includeLowercase.getD DEFAULT_CONFIG.includeLowercase,
    includeUppercase := config.includeUppercase.getD DEFAULT_CONFIG.includeUppercase,
    includeNumbers := config.includeNumbers.getD DEFAULT_CONFIG.includeNumbers,
    includeSymbols := config.includeSymbols.getD DEFAULT_CONFIG.includeSymbols,
    excludeAmbiguous := config.excludeAmbiguous.getD DEFAULT_CONFIG.excludeAmbiguous }

/-- Model of `generateRandomString` (passwordGenerator.ts line 81).
    `randomBytes` stands for the `crypto.getRandomValues` output: `len`
    bytes, each `< 256`. -/
def generateRandomString (len : Nat) (charSet : String) (randomBytes : List Nat) : String :=
  String.mk ((List.range len).map
    (fun i => charSet.data.getD ((randomBytes.getD i 0) % charSet.data.length) 'a'))

/-- Model of `hasCharacterType` (passwordGenerator.ts line 137). -/
def hasCharacterType (password charSet : String) : Bool :=
  charSet.data.any (fun c => password.data.contains c)

/-- Model of `replaceRandomCharacter` (passwordGenerator.ts line 147).
    `posSeed` stands for the `Math.random()` position draw and `byteSeed`
    for the random replacement byte. -/
def replaceRandomCharacter (passwordArray : List Char) (targetCharSet : String)
    (posSeed byteSeed : Nat) : List Char :=
  let replaceablePositions :=
    (List.range passwordArray.length).filter
      (fun i => !(targetCharSet.data.contains (passwordArray.getD i 'a')))
  let position :=
    if replaceablePositions.length > 0 then
      replaceablePositions.getD (posSeed % replaceablePositions.length) 0
    else posSeed % passwordArray.length
  passwordArray.set position
    (targetCharSet.data.getD (byteSeed % targetCharSet.data.length) 'a')

/-- One conditional fix step of `ensureCharacterTypes`: when `wanted` is set
    but the originally generated password lacks the character type, replace
    one character, consuming one pair of random draws. -/
def fixStep (orig : String) (wanted : Bool) (targetCharSet : String)
    (arr : List Char) (draws : List (Nat × Nat)) : List Char × List (Nat × Nat) :=
  if wanted ∧ !(hasCharacterType orig targetCharSet) then
    (replaceRandomCharacter arr targetCharSet (draws.headD (0, 0)).1 (draws.headD (0, 0)).2,
     draws.tail)
  else (arr, draws)

/-- Model of `ensureCharacterTypes` (passwordGenerator.ts line 100): the four
    membership checks are made against the originally generated `password`,
    while the replacements accumulate in the character array. -/
def ensureCharacterTypes (password : String) (config : PasswordConfig)
    (draws : List (Nat × Nat)) : String :=
  let s0 := (password.data, draws)
  let s1 := fixStep password config.includeLowercase lowercaseChars s0.1 s0.2
  let s2 := fixStep password config.includeUppercase uppercaseChars s1.1 s1.2
  let s3 := fixStep password config.includeNumbers numberChars s2.1 s2.2
  let s4 := fixStep password config.includeSymbols symbolChars s3.1 s3.2
  String.mk s4.1

/-- Model of `generatePassword` (passwordGenerator.ts line 39): merge the
    partial config over the defaults, validate eagerly (throwing on an
    out-of-range length or on no selected character type), build the
    character set, and generate.  `randomBytes` and `draws` stand for the
    consumed randomness. -/
def generatePassword (config : PartialPasswordConfig) (randomBytes : List Nat)
    (draws : List (Nat × Nat)) : Except String String :=
  let finalConfig := mergeConfig config
  if finalConfig.length < MIN_PASSWORD_GEN_LENGTH ∨
      finalConfig.length > MAX_PASSWORD_GEN_LENGTH then
    Except.error "Password length must be between 8 and 64 characters"
  else if !finalConfig.includeLowercase ∧ !finalConfig.includeUppercase ∧
      !finalConfig.includeNumbers ∧ !finalConfig.includeSymbols then
    Except.error "At least one character type must be selected"
  else
    let charSet :=
      (if finalConfig.includeLowercase then lowercaseChars else "") ++
      (if finalConfig.includeUppercase then uppercaseChars else "") ++
      (if finalConfig.includeNumbers then numberChars else "") ++
      (if finalConfig.includeSymbols then symbolChars else "")
    let charSet :=
      if finalConfig.excludeAmbiguous then
        String.mk (charSet.data.filter (fun c => !(ambiguousChars.data.contains c)))
      else charSet
    if charSet.data.length = 0 then
      Except.error "No valid characters available for password generation"
    else
      let password := generateRandomString finalConfig.length charSet randomBytes
      Except.ok (ensureCharacterTypes password finalConfig draws)

/- ------------------------------------------------------------------ -/
/- Observers used to state the nonce-reuse claims. -/

/-- The (key, nonce) pair a ciphertext was produced under, when it is a real
    AES-GCM ciphertext. -/
def Ct.keyNonce : Ct → Option (Key × List Nat)
  | Ct.enc _ k i => some (k, i)
  | Ct.mk _ => none

/-- The plaintext a ciphertext encrypts, when it is a real ciphertext. -/
def Ct.plainData : Ct → Option String
  | Ct.enc d _ _ => some d
  | Ct.mk _ => none

/-- Whether a stored field value is a real AES-GCM ciphertext. -/
def Ct.isCiphertext : Ct → Bool
  | Ct.enc _ _ _ => true
  | Ct.mk _ => false

/-- The ciphertext-capable fields of a persisted record. -/
def recordFields (r : EncryptedPasswordEntry) : List Ct :=
  r.password :: (match r.notes with | some c => [c] | none => [])

/-- The real AES-GCM ciphertexts carried by a persisted record. -/
def encCiphertexts (r : EncryptedPasswordEntry) : List Ct :=
  (recordFields r).filter Ct.isCiphertext

/- ------------------------------------------------------------------ -/
/- Concrete example inputs used by the witness and counterexample theorems. -/

/-- A concrete 12-byte IV (a possible `generateIV()` output). -/
def exIv : List Nat := [0, 0, 0, 0, 0, 0, 0, 0, 0, 0, 0, 0]

/-- Base64 of `exIv`. -/
def exIvB64 : String := "AAAAAAAAAAAAAAAA"

/-- A concrete base64 vault salt (decodes to `[0, 0, 0]`). -/
def exSaltB64 : String := "AAAA"

/-- The key derived from passphrase `pw` and the decoded `exSaltB64`. -/
def exKey : Key := deriveKey "pw" [0, 0, 0]

/-- A concrete plaintext record with nonempty notes. -/
def exEntry : PasswordEntry :=
  { id := "1", title := "mail", username := some "alice", password := "s3cr3t!",
    url := none, notes := some "personal", createdAt := 0, updatedAt := none }

/-- A concrete plaintext record with absent notes. -/
def exEntryNoNotes : PasswordEntry :=
  { id := "2", title := "bank", username := none, password := "hunter2",
    url := none, notes := none, createdAt := 0, updatedAt := none }

/-- A well-formed persisted record whose password decrypts to `p` under
    `exKey` and `exIv`. -/
def exEnc (ident p : String) : EncryptedPasswordEntry :=
  { id := ident, title := "t", username := none, password := Ct.enc p exKey exIv,
    url := none, notes := some (Ct.mk ""), iv := exIvB64, createdAt := 0,
    updatedAt := none }

/-- A persisted record whose ciphertext has been corrupted (a flipped byte),
    so that AES-GCM authentication fails under every key. -/
def exBadEnc : EncryptedPasswordEntry :=
  { id := "bad", title := "t", username := none, password := Ct.mk "corrupted",
    url := none, notes := some (Ct.mk ""), iv := exIvB64, createdAt := 0,
    updatedAt := none }

/-- A concrete two-record store. -/
def exStore : VaultStore :=
  { data := [exEnc "a" "p1", exEnc "b" "p2"], writeCount := 0 }

/-- A concrete partial update. -/
def exPatch : EntryPatch := { title := some "renamed" }

/- ------------------------------------------------------------------ -/
/- Helper lemmas: base64 round-trip. -/

theorem b64Char_index : ∀ s : Nat, s < 64 → b64Index (b64Char s) = some s := by decide

theorem b64Char_not_ws : ∀ s : Nat, s < 64 → isB64Ws (b64Char s) = false := by decide

theorem b64Char_ne_pad : ∀ s : Nat, s < 64 → b64Char s ≠ '=' := by decide

theorem toSextets_lt (l : List Nat) (h : ∀ b ∈ l, b < 256) :
    ∀ s ∈ toSextets l, s < 64 := by
  induction l using toSextets.induct with
  | case1 b1 b2 b3 rest ih =>
      simp only [toSextets, List.mem_cons] at *
      intro s hs
      have h1 := h b1 (by tauto)
      have h2 := h b2 (by tauto)
      have h3 := h b3 (by tauto)
      rcases hs with rfl | rfl | rfl | rfl | hs
      · omega
      · omega
      · omega
      · omega
      · exact ih (fun b hb => h b (by tauto)) s hs
  | case2 b1 b2 =>
      simp only [toSextets, List.mem_cons] at *
      intro s hs
      have h1 := h b1 (by tauto)
      have h2 := h b2 (by tauto)
      rcases hs with rfl | rfl | rfl | hs
      · omega
      · omega
      · omega
      · simp at hs
  | case3 b1 =>
      simp only [toSextets, List.mem_cons] at *
      intro s hs
      have h1 := h b1 (by tauto)
      rcases hs with rfl | rfl | hs
      · omega
      · omega
      · simp at hs
  | case4 => simp [toSextets]

theorem toSextets_len (l : List Nat) :
    3 * (toSextets l).length = 4 * l.length + padCount l := by
  induction l using toSextets.induct with
  | case1 b1 b2 b3 rest ih =>
      simp only [toSextets, List.length_cons, padCount] at *
      omega
  | case2 b1 b2 => simp [toSextets, padCount]
  | case3 b1 => simp [toSextets, padCount]
  | case4 => simp [toSextets, padCount]

theorem sextets_bytes (l : List Nat) (h : ∀ b ∈ l, b < 256) :
    sextetsToBytes (toSextets l) = l := by
  induction l using toSextets.induct with
  | case1 b1 b2 b3 rest ih =>
      have h1 := h b1 (by simp)
      have h2 := h b2 (by simp)
      have h3 := h b3 (by simp)
      simp only [toSextets, sextetsToBytes]
      have e1 : b1 / 4 * 4 + ((b1 % 4) * 16 + b2 / 16) / 16 = b1 := by omega
      have e2 : ((b1 % 4) * 16 + b2 / 16) % 16 * 16 + ((b2 % 16) * 4 + b3 / 64) / 4 = b2 := by
        omega
      have e3 : ((b2 % 16) * 4 + b3 / 64) % 4 * 64 + b3 % 64 = b3 := by omega
      rw [e1, e2, e3, ih (fun b hb => h b (by simp [hb]))]
  | case2 b1 b2 =>
      have h1 := h b1 (by simp)
      have h2 := h b2 (by simp)
      simp only [toSextets, sextetsToBytes]
      have e1 : b1 / 4 * 4 + ((b1 % 4) * 16 + b2 / 16) / 16 = b1 := by omega
      have e2 : ((b1 % 4) * 16 + b2 / 16) % 16 * 16 + (b2 % 16) * 4 / 4 = b2 := by omega
      rw [e1, e2]
  | case3 b1 =>
      have h1 := h b1 (by simp)
      simp only [toSextets, sextetsToBytes]
      have e1 : b1 / 4 * 4 + (b1 % 4) * 16 / 16 = b1 := by omega
      rw [e1]
  | case4 => simp [toSextets, sextetsToBytes]

theorem dropPad_no_pad (cs : List Char) (h4 : cs.length % 4 = 0)
    (hne : ∀ c ∈ cs, c ≠ '=') : dropPad cs = cs := by
  unfold dropPad
  rw [if_pos (by simp [h4])]
  split
  · next rest heq =>
      exfalso
      have hm : '=' ∈ cs := by
        rw [← List.mem_reverse, heq]; simp
      exact hne _ hm rfl
  · next rest heq =>
      exfalso
      have hm : '=' ∈ cs := by
        rw [← List.mem_reverse, heq]; simp
      exact hne _ hm rfl
  · rfl

theorem dropPad_pad1 (cs : List Char) (h : (cs.length + 1) % 4 = 0)
    (hne : ∀ c ∈ cs, c ≠ '=') : dropPad (cs ++ ['=']) = cs := by
  unfold dropPad
  rw [if_pos (by simp; omega)]
  have hrev : (cs ++ ['=']).reverse = '=' :: cs.reverse := by simp
  rw [hrev]
  cases hcs : cs.reverse with
  | nil =>
      have : cs.length = 0 := by
        have := congrArg List.length hcs
        simpa using this
      omega
  | cons c rest =>
      have hc : c ≠ '=' := by
        have hm : c ∈ cs := by
          rw [← List.mem_reverse, hcs]; simp
        exact hne c hm
      split
      · next rest2 heq =>
          exfalso
          rw [List.cons.injEq, List.cons.injEq] at heq
          exact hc heq.2.1
      · next rest2 heq =>
          rw [List.cons.injEq] at heq
          rw [← heq.2, ← hcs, List.reverse_reverse]
      · next hno1 hno2 =>
          exact (hno2 (c :: rest) rfl).elim

theorem dropPad_pad2 (cs : List Char) (h : (cs.length + 2) % 4 = 0) :
    dropPad (cs ++ ['=', '=']) = cs := by
  unfold dropPad
  rw [if_pos (by simp; omega)]
  have hrev : (cs ++ ['=', '=']).reverse = '=' :: '=' :: cs.reverse := by simp
  rw [hrev]
  simp

theorem atob_btoa (l : List Nat) (h : ∀ b ∈ l, b < 256) :
    atobBytes (btoaBytes l) = some l := by
  have hlt := toSextets_lt l h
  have hlen := toSextets_len l
  have hpc : padCount l < 3 := by unfold padCount; omega
  set S := toSextets l with hS
  have hmapne : ∀ c ∈ S.map b64Char, c ≠ '=' := by
    intro c hc
    rcases List.mem_map.mp hc with ⟨s, hs, rfl⟩
    exact b64Char_ne_pad s (hlt s hs)
  have hmapws : ∀ c ∈ S.map b64Char, isB64Ws c = false := by
    intro c hc
    rcases List.mem_map.mp hc with ⟨s, hs, rfl⟩
    exact b64Char_not_ws s (hlt s hs)
  unfold btoaBytes atobBytes
  have hdata : (String.mk ((toSextets l).map b64Char ++
      List.replicate (padCount l) '=')).data =
      S.map b64Char ++ List.replicate (padCount l) '=' := rfl
  rw [hdata]
  have hfilter : (S.map b64Char ++ List.replicate (padCount l) '=').filter
      (fun c => !(isB64Ws c)) = S.map b64Char ++ List.replicate (padCount l) '=' := by
    rw [List.filter_eq_self]
    intro c hc
    rcases List.mem_append.mp hc with hc | hc
    · simp [hmapws c hc]
    · have : c = '=' := List.eq_of_mem_replicate hc
      subst this
      decide
  rw [hfilter]
  have hdp : dropPad (S.map b64Char ++ List.replicate (padCount l) '=') = S.map b64Char := by
    have hml : (S.map b64Char).length = S.length := List.length_map _ _
    rcases hp : padCount l with _ | _ | _ | n
    · simp only [List.replicate, List.append_nil]
      apply dropPad_no_pad
      · rw [hml]; omega
      · exact hmapne
    · have : List.replicate 1 '=' = ['='] := rfl
      rw [this]
      apply dropPad_pad1
      · rw [hml]; omega
      · exact hmapne
    · have : List.replicate 2 '=' = ['=', '='] := rfl
      rw [this]
      apply dropPad_pad2
      rw [hml]; omega
    · omega
  rw [hdp]
  have hnot1 : ((S.map b64Char).length % 4 == 1) = false := by
    rw [List.length_map]
    simp only [beq_eq_false_iff_ne, ne_eq]
    omega
  simp only [hnot1]
  have hall : (S.map b64Char).all (fun c => (b64Index c).isSome) = true := by
    rw [List.all_eq_true]
    intro c hc
    rcases List.mem_map.mp hc with ⟨s, hs, rfl⟩
    rw [b64Char_index s (hlt s hs)]
    rfl
  simp only [hall]
  have hmapinv : (S.map b64Char).map (fun c => (b64Index c).getD 0) = S := by
    rw [List.map_map]
    conv_rhs => rw [← List.map_id S]
    apply List.map_congr_left
    intro s hs
    simp [b64Char_index s (hlt s hs)]
  simp only [Bool.false_eq_true, if_false, if_true, hmapinv, sextets_bytes l h]

/- ------------------------------------------------------------------ -/
/- Helper lemmas: record-level decryption of a freshly encrypted record. -/

theorem decryptData_encryptData (p : String) (k : Key) (iv : List Nat) :
    decryptData (encryptData p k iv) k iv = Except.ok p := by
  simp [encryptData, decryptData]

theorem decrypt_encrypt_entry (e : PasswordEntry) (k : Key) (iv : List Nat)
    (hiv : ∀ b ∈ iv, b < 256) :
    decryptPasswordEntry (encryptPasswordEntry e k iv) k =
      Except.ok
        { id := e.id, title := e.title, username := e.username,
          password := e.password, url := e.url,
          notes := some (if strTruthy e.notes then e.notes.getD "" else ""),
          createdAt := e.createdAt, updatedAt := e.updatedAt } := by
  unfold decryptPasswordEntry encryptPasswordEntry
  simp only [atobBytesE, atob_btoa iv hiv]
  rcases e.notes with _ | s
  · simp [strTruthy, encryptData, Ct.truthy, decryptData, bind, Except.bind]
  · rcases eq_or_ne s "" with rfl | hs
    · simp [strTruthy, encryptData, Ct.truthy, decryptData, bind, Except.bind]
    · simp [strTruthy, hs, encryptData, Ct.truthy, decryptData, bind, Except.bind]

/- ------------------------------------------------------------------ -/
/- Claim theorems. -/

/-- C5: encrypt-then-decrypt round-trips.  Decrypting `encryptData`'s output
    under the same key and IV yields the plaintext back, and at the record
    level `decryptPasswordEntry` applied to `encryptPasswordEntry`'s output
    under the same key recovers the original secret, and the original notes
    when notes are present (nonempty). -/
theorem c5_encrypt_decrypt_roundtrip (p : String) (k : Key) (iv : List Nat)
    (e : PasswordEntry) (hiv : ∀ b ∈ iv, b < 256) :
    decryptData (encryptData p k iv) k iv = Except.ok p ∧
    ∃ d, decryptPasswordEntry (encryptPasswordEntry e k iv) k = Except.ok d ∧
      d.password = e.password ∧ (strTruthy e.notes = true → d.notes = e.notes) := by
  refine ⟨decryptData_encryptData p k iv, ?_⟩
  refine ⟨_, decrypt_encrypt_entry e k iv hiv, rfl, ?_⟩
  intro ht
  rcases hn : e.notes with _ | s
  · rw [hn] at ht; simp [strTruthy] at ht
  · rw [hn] at ht
    simp [hn, ht]

/-- Witness for C5 at a concrete entry, key and IV. -/
theorem c5_roundtrip_witness :
    decryptData (encryptData "s3cr3t!" exKey exIv) exKey exIv = Except.ok "s3cr3t!" ∧
    ∃ d, decryptPasswordEntry (encryptPasswordEntry exEntry exKey exIv) exKey = Except.ok d ∧
      d.password = exEntry.password ∧
      (strTruthy exEntry.notes = true → d.notes = exEntry.notes) :=
  c5_encrypt_decrypt_roundtrip "s3cr3t!" exKey exIv exEntry (by decide)

/-- C4: for every passphrase and every well-formed (decodable) salt,
    `verifyMasterPassword` applied to an empty record list does not throw and
    returns `true`. -/
theorem c4_verify_empty_vault (masterPassword vaultSalt : String) (salt : List Nat)
    (hsalt : atobBytes vaultSalt = some salt) :
    verifyMasterPassword masterPassword vaultSalt [] = true := by
  unfold verifyMasterPassword verifyMasterPasswordE
  simp [atobBytesE, hsalt, deriveKeyE, bind, Except.bind]

/-- Witness for C4 at a concrete passphrase and salt. -/
theorem c4_verify_empty_witness :
    atobBytes exSaltB64 = some [0, 0, 0] ∧
    verifyMasterPassword "pw" exSaltB64 [] = true :=
  ⟨by decide, c4_verify_empty_vault "pw" exSaltB64 [0, 0, 0] (by decide)⟩

/-- C3: for every passphrase, decodable salt and nonempty record list,
    `verifyMasterPassword` derives the candidate key, attempts to decrypt
    exactly the first record, and returns `true` iff that decryption
    succeeds; a decryption failure becomes the value `false` rather than a
    propagated exception (the result is a total boolean). -/
theorem c3_verify_first_record (masterPassword vaultSalt : String)
    (e : EncryptedPasswordEntry) (rest : List EncryptedPasswordEntry) (salt : List Nat)
    (hsalt : atobBytes vaultSalt = some salt) :
    verifyMasterPassword masterPassword vaultSalt (e :: rest) =
      isOkB (decryptPasswordEntry e (deriveKey masterPassword salt)) := by
  unfold verifyMasterPassword verifyMasterPasswordE
  simp only [atobBytesE, hsalt, deriveKeyE, bind, Except.bind]
  cases hd : decryptPasswordEntry e (deriveKey masterPassword salt) <;> simp [isOkB, hd]

/-- Witness for C3 at a concrete salt and two-record vault. -/
theorem c3_verify_witness :
    atobBytes exSaltB64 = some [0, 0, 0] ∧
    verifyMasterPassword "pw" exSaltB64 [exEnc "a" "p1", exBadEnc] =
      isOkB (decryptPasswordEntry (exEnc "a" "p1") (deriveKey "pw" [0, 0, 0])) :=
  ⟨by decide,
   c3_verify_first_record "pw" exSaltB64 (exEnc "a" "p1") [exBadEnc] [0, 0, 0] (by decide)⟩

/-- C10: `verifyMasterPassword` is total over all inputs: for every
    passphrase, every salt string (valid base64 or not) and every record
    list, it returns exactly the boolean given by this characterization, so
    every internal failure of any kind is converted to `false` and nothing is
    thrown. -/
theorem c10_verify_total (masterPassword vaultSalt : String)
    (vaultData : List EncryptedPasswordEntry) :
    verifyMasterPassword masterPassword vaultSalt vaultData =
      (match atobBytes vaultSalt with
       | none => false
       | some salt =>
         match vaultData with
         | [] => true
         | e :: _ => isOkB (decryptPasswordEntry e (deriveKey masterPassword salt))) := by
  unfold verifyMasterPassword verifyMasterPasswordE
  cases hsalt : atobBytes vaultSalt with
  | none => simp [atobBytesE, hsalt, bind, Except.bind]
  | some salt =>
      simp only [atobBytesE, hsalt, deriveKeyE, bind, Except.bind]
      cases vaultData with
      | nil => simp
      | cons e rest =>
          cases hd : decryptPasswordEntry e (deriveKey masterPassword salt) <;>
            simp [isOkB, hd]

/- Helper lemmas for the bulk-load claim. -/

theorem loadPasswords_append (l1 l2 : List EncryptedPasswordEntry) (k : Key) :
    loadPasswords (l1 ++ l2) k = loadPasswords l1 k ++ loadPasswords l2 k := by
  induction l1 with
  | nil => simp [loadPasswords]
  | cons e rest ih =>
      simp only [List.cons_append, loadPasswords]
      cases decryptPasswordEntry e k <;> simp [ih]

theorem loadPasswords_length_all_ok (l : List EncryptedPasswordEntry) (k : Key)
    (h : l.all (fun e => isOkB (decryptPasswordEntry e k)) = true) :
    (loadPasswords l k).length = l.length := by
  induction l with
  | nil => rfl
  | cons e rest ih =>
      simp only [List.all_cons, Bool.and_eq_true] at h
      cases hd : decryptPasswordEntry e k with
      | error err => rw [hd] at h; simp [isOkB] at h
      | ok d =>
          simp only [loadPasswords, hd, List.length_cons]
          rw [ih h.2]

/-- C6: bulk decryption is partial-failure tolerant: when every record
    before and after the single bad record decrypts and the bad one fails,
    the load returns exactly the successfully decrypted records in order
    (the loads of the two good segments, concatenated) and their count is
    the total minus one; nothing is raised (the function is total). -/
theorem c6_partial_failure_tolerant (key : Key)
    (pre post : List EncryptedPasswordEntry) (bad : EncryptedPasswordEntry)
    (hbad : isOkB (decryptPasswordEntry bad key) = false)
    (hpre : pre.all (fun e => isOkB (decryptPasswordEntry e key)) = true)
    (hpost : post.all (fun e => isOkB (decryptPasswordEntry e key)) = true) :
    loadPasswords (pre ++ bad :: post) key =
      loadPasswords pre key ++ loadPasswords post key ∧
    (loadPasswords (pre ++ bad :: post) key).length = pre.length + post.length := by
  have hskip : loadPasswords (bad :: post) key = loadPasswords post key := by
    cases hd : decryptPasswordEntry bad key with
    | error err => simp [loadPasswords, hd]
    | ok d => rw [hd] at hbad; simp [isOkB] at hbad
  have happ := loadPasswords_append pre (bad :: post) key
  rw [hskip] at happ
  refine ⟨happ, ?_⟩
  rw [happ, List.length_append, loadPasswords_length_all_ok pre key hpre,
    loadPasswords_length_all_ok post key hpost]

/-- Witness for C6: a five-record vault whose third record is corrupted
    loads as exactly the other four, in order. -/
theorem c6_partial_failure_witness :
    isOkB (decryptPasswordEntry exBadEnc exKey) = false ∧
    ([exEnc "1" "p1", exEnc "2" "p2"].all
      (fun e => isOkB (decryptPasswordEntry e exKey))) = true ∧
    ([exEnc "4" "p4", exEnc "5" "p5"].all
      (fun e => isOkB (decryptPasswordEntry e exKey))) = true ∧
    loadPasswords ([exEnc "1" "p1", exEnc "2" "p2"] ++ exBadEnc ::
        [exEnc "4" "p4", exEnc "5" "p5"]) exKey =
      loadPasswords [exEnc "1" "p1", exEnc "2" "p2"] exKey ++
        loadPasswords [exEnc "4" "p4", exEnc "5" "p5"] exKey ∧
    (loadPasswords ([exEnc "1" "p1", exEnc "2" "p2"] ++ exBadEnc ::
        [exEnc "4" "p4", exEnc "5" "p5"]) exKey).length = 2 + 2 :=
  ⟨by decide, by decide, by decide,
   c6_partial_failure_tolerant exKey [exEnc "1" "p1", exEnc "2" "p2"]
     [exEnc "4" "p4", exEnc "5" "p5"] exBadEnc (by decide) (by decide) (by decide)⟩

/- Helper lemmas for the update claim. -/

theorem findIndex_eq_none {α : Type} (p : α → Bool) (l : List α)
    (h : ∀ a ∈ l, p a = false) : findIndex p l = none := by
  induction l with
  | nil => rfl
  | cons a rest ih =>
      simp only [findIndex]
      rw [h a (by simp)]
      simp [ih (fun b hb => h b (by simp [hb]))]

theorem findIndex_first {α : Type} (p : α → Bool) (l : List α) (i : Nat) (x : α)
    (hx : l[i]? = some x) (hpx : p x = true)
    (hbefore : ∀ j, j < i → ∀ y, l[j]? = some y → p y = false) :
    findIndex p l = some i := by
  induction l generalizing i with
  | nil => simp at hx
  | cons a rest ih =>
      cases i with
      | zero =>
          have : a = x := by simpa using hx
          subst this
          simp [findIndex, hpx]
      | succ n =>
          have ha : p a = false := hbefore 0 (Nat.succ_pos n) a (by simp)
          simp only [findIndex, ha, Bool.false_eq_true, if_false]
          have hrec := ih n (by simpa using hx) (fun j hj y hy =>
            hbefore (j + 1) (by omega) y (by simpa using hy))
          rw [hrec]
          rfl

/-- C7: for every stored list and an id not present, the update operation
    returns the not-found result `false` and leaves the store (data and
    write count) completely unchanged — no write occurs; for an id present
    first at index `i`, the store is written once with only that entry
    replaced by the merged entry: length, every other entry and their order
    are unchanged. -/
theorem c7_update_entry (id : String) (p : EntryPatch) (now : Nat)
    (store : VaultStore) :
    ((∀ e ∈ store.data, (e.id == id) = false) →
      updatePasswordEntry id p now store = (false, store)) ∧
    (∀ i old, store.data[i]? = some old → (old.id == id) = true →
      (∀ j, j < i → ∀ y, store.data[j]? = some y → (y.id == id) = false) →
      updatePasswordEntry id p now store =
        (true, { data := store.data.set i (mergeEntry old p now),
                 writeCount := store.writeCount + 1 }) ∧
      (store.data.set i (mergeEntry old p now)).length = store.data.length ∧
      (∀ j, j ≠ i → (store.data.set i (mergeEntry old p now))[j]? = store.data[j]?) ∧
      (store.data.set i (mergeEntry old p now))[i]? = some (mergeEntry old p now)) := by
  constructor
  · intro habsent
    simp only [updatePasswordEntry, getVaultData, findIndex_eq_none _ _ habsent]
  · intro i old hx hpx hbefore
    have hfind : findIndex (fun entry => entry.id == id) store.data = some i :=
      findIndex_first _ _ i old hx hpx hbefore
    have hlt : i < store.data.length := by
      by_contra hge
      rw [List.getElem?_eq_none (by omega)] at hx
      exact Option.noConfusion hx
    refine ⟨?_, by simp, ?_, ?_⟩
    · simp only [updatePasswordEntry, getVaultData, setVaultData, hfind, hx]
    · intro j hj
      exact List.getElem?_set_ne (by omega)
    · exact List.getElem?_set_eq_of_lt _ hlt

/-- Witness for C7: updating an absent id leaves the concrete store
    untouched; updating a present id rewrites only that entry. -/
theorem c7_update_entry_witness :
    updatePasswordEntry "zz" exPatch 5 exStore = (false, exStore) ∧
    (updatePasswordEntry "b" exPatch 5 exStore =
      (true, { data := exStore.data.set 1 (mergeEntry (exEnc "b" "p2") exPatch 5),
               writeCount := exStore.writeCount + 1 }) ∧
     (exStore.data.set 1 (mergeEntry (exEnc "b" "p2") exPatch 5)).length =
       exStore.data.length ∧
     (∀ j, j ≠ 1 → (exStore.data.set 1 (mergeEntry (exEnc "b" "p2") exPatch 5))[j]? =
       exStore.data[j]?) ∧
     (exStore.data.set 1 (mergeEntry (exEnc "b" "p2") exPatch 5))[1]? =
       some (mergeEntry (exEnc "b" "p2") exPatch 5)) :=
  ⟨(c7_update_entry "zz" exPatch 5 exStore).1 (by decide),
   (c7_update_entry "b" exPatch 5 exStore).2 1 (exEnc "b" "p2") (by decide) (by decide)
     (by intro j hj y hy
         have hj0 : j = 0 := by omega
         subst hj0
         have h0 : exStore.data[0]? = some (exEnc "a" "p1") := rfl
         rw [h0] at hy
         injection hy with h
         subst h
         decide)⟩

/-- C9: the password generator validates the merged configuration eagerly:
    for every partial config whose merged length lies outside 8..64, or with
    no character type selected, `generatePassword` fails with an error (and
    produces no password), regardless of the supplied randomness. -/
theorem c9_generate_rejects_invalid (config : PartialPasswordConfig)
    (randomBytes : List Nat) (draws : List (Nat × Nat))
    (h : (mergeConfig config).length < MIN_PASSWORD_GEN_LENGTH ∨
         (mergeConfig config).length > MAX_PASSWORD_GEN_LENGTH ∨
         ((mergeConfig config).includeLowercase = false ∧
          (mergeConfig config).includeUppercase = false ∧
          (mergeConfig config).includeNumbers = false ∧
          (mergeConfig config).includeSymbols = false)) :
    ∃ msg, generatePassword config randomBytes draws = Except.error msg := by
  unfold generatePassword
  rcases h with h | h | ⟨h1, h2, h3, h4⟩
  · rw [if_pos (Or.inl h)]
    exact ⟨_, rfl⟩
  · rw [if_pos (Or.inr h)]
    exact ⟨_, rfl⟩
  · by_cases hl : (mergeConfig config).length < MIN_PASSWORD_GEN_LENGTH ∨
        (mergeConfig config).length > MAX_PASSWORD_GEN_LENGTH
    · rw [if_pos hl]
      exact ⟨_, rfl⟩
    · rw [if_neg hl, if_pos (by simp [h1, h2, h3, h4])]
      exact ⟨_, rfl⟩

/-- Witness for C9: a requested length of 4 and a config with every
    character type disabled are both rejected. -/
theorem c9_generate_rejects_witness :
    ((mergeConfig { length := some 4 }).length < MIN_PASSWORD_GEN_LENGTH ∨
     (mergeConfig { length := some 4 }).length > MAX_PASSWORD_GEN_LENGTH ∨
     ((mergeConfig { length := some 4 }).includeLowercase = false ∧
      (mergeConfig { length := some 4 }).includeUppercase = false ∧
      (mergeConfig { length := some 4 }).includeNumbers = false ∧
      (mergeConfig { length := some 4 }).includeSymbols = false)) ∧
    (∃ msg, generatePassword { length := some 4 } [] [] = Except.error msg) :=
  ⟨Or.inl (by decide),
   c9_generate_rejects_invalid { length := some 4 } [] [] (Or.inl (by decide))⟩

/-- C1 counterexample: a single `encryptPasswordEntry` call on a record with
    nonempty notes produces two ciphertexts of two distinct plaintexts that
    share the same (key, nonce) pair, refuting the claim that no two
    ciphertexts from one record-encryption call share (key, nonce). -/
theorem c1_shared_nonce_within_record :
    ((encryptPasswordEntry exEntry exKey exIv).password).keyNonce =
      some (exKey, exIv) ∧
    (encryptPasswordEntry exEntry exKey exIv).notes =
      some (Ct.enc "personal" exKey exIv) ∧
    (Ct.enc "personal" exKey exIv).keyNonce = some (exKey, exIv) ∧
    (Ct.enc "personal" exKey exIv).plainData ≠
      ((encryptPasswordEntry exEntry exKey exIv).password).plainData := by
  refine ⟨rfl, by decide, rfl, by decide⟩

/- Helper lemma: every real ciphertext produced by one record-encryption
   call carries exactly that call's (key, nonce). -/

theorem encCiphertexts_keyNonce (e : PasswordEntry) (k : Key) (iv : List Nat) :
    ∀ c ∈ encCiphertexts (encryptPasswordEntry e k iv), c.keyNonce = some (k, iv) := by
  intro c hc
  unfold encCiphertexts recordFields encryptPasswordEntry at hc
  rcases hn : e.notes with _ | s <;> rw [hn] at hc
  · simp [encryptData, Ct.isCiphertext, List.filter] at hc
    subst hc
    rfl
  · by_cases hs : s = ""
    · subst hs
      simp [encryptData, Ct.isCiphertext, List.filter] at hc
      subst hc
      rfl
    · simp [encryptData, Ct.isCiphertext, List.filter, hs] at hc
      rcases hc with rfl | rfl <;> rfl

/-- C1 amended: within one record-encryption call the secret and notes
    ciphertexts share the call's single (key, nonce) pair — a deliberate
    one-nonce-per-record design — and therefore across any two encryption
    calls made with distinct (key, nonce) pairs (as fresh random nonces
    give) no two produced ciphertexts share both key and nonce. -/
theorem c1_nonce_unique_across_calls (e1 e2 : PasswordEntry) (k1 k2 : Key)
    (iv1 iv2 : List Nat) (hne : (k1, iv1) ≠ (k2, iv2)) :
    (∀ c ∈ encCiphertexts (encryptPasswordEntry e1 k1 iv1),
      c.keyNonce = some (k1, iv1)) ∧
    (∀ c1 ∈ encCiphertexts (encryptPasswordEntry e1 k1 iv1),
     ∀ c2 ∈ encCiphertexts (encryptPasswordEntry e2 k2 iv2),
      c1.keyNonce ≠ c2.keyNonce) := by
  refine ⟨encCiphertexts_keyNonce e1 k1 iv1, ?_⟩
  intro c1 h1 c2 h2
  rw [encCiphertexts_keyNonce e1 k1 iv1 c1 h1, encCiphertexts_keyNonce e2 k2 iv2 c2 h2]
  simp [hne]

/-- Witness for C1 amended: two concrete calls with distinct nonces. -/
theorem c1_nonce_unique_witness :
    (∀ c ∈ encCiphertexts (encryptPasswordEntry exEntry exKey exIv),
      c.keyNonce = some (exKey, exIv)) ∧
    (∀ c1 ∈ encCiphertexts (encryptPasswordEntry exEntry exKey exIv),
     ∀ c2 ∈ encCiphertexts (encryptPasswordEntry exEntryNoNotes exKey
        [1, 1, 1, 1, 1, 1, 1, 1, 1, 1, 1, 1]),
      c1.keyNonce ≠ c2.keyNonce) :=
  c1_nonce_unique_across_calls exEntry exEntryNoNotes exKey exKey exIv
    [1, 1, 1, 1, 1, 1, 1, 1, 1, 1, 1, 1] (by decide)

/-- C2 counterexample: for a 15-byte salt — a length different from the
    fixed 16-byte `SALT_LENGTH` — `deriveKey` does not fail with any error:
    the source performs no salt-length validation and succeeds. -/
theorem c2_no_salt_validation :
    (List.replicate 15 (0 : Nat)).length ≠ SALT_LENGTH ∧
    deriveKeyE "pw" (List.replicate 15 0) =
      Except.ok (Key.derived "pw" (List.replicate 15 0)) ∧
    ∀ err, deriveKeyE "pw" (List.replicate 15 0) ≠ Except.error err := by
  refine ⟨by decide, rfl, ?_⟩
  intro err h
  simp [deriveKeyE] at h

/-- C2 amended: `deriveKey` performs no salt-length validation: for every
    passphrase and every salt of any length it succeeds (never raising any
    error), deterministically returning the key derived from exactly that
    passphrase and salt. -/
theorem c2_deriveKey_never_fails (masterPassword : String) (salt : List Nat) :
    deriveKeyE masterPassword salt = Except.ok (deriveKey masterPassword salt) ∧
    ∀ err, deriveKeyE masterPassword salt ≠ Except.error err := by
  refine ⟨rfl, ?_⟩
  intro err h
  simp [deriveKeyE] at h

/-- C8 counterexample: encrypting a record whose notes are absent yields a
    persisted record whose notes field is present (the empty-string
    sentinel), not absent and not a base64 ciphertext. -/
theorem c8_notes_sentinel :
    (encryptPasswordEntry exEntryNoNotes exKey exIv).notes = some (Ct.mk "") ∧
    (encryptPasswordEntry exEntryNoNotes exKey exIv).notes ≠ none ∧
    (Ct.mk "").isCiphertext = false := by
  refine ⟨by decide, by decide, rfl⟩

/-- C8 amended: in every record produced by `encryptPasswordEntry`, the
    notes field is a ciphertext exactly when the plaintext notes are present
    and nonempty, and otherwise is the present empty-string sentinel `''`
    (never absent). -/
theorem c8_notes_field (e : PasswordEntry) (k : Key) (iv : List Nat) :
    (strTruthy e.notes = true →
      (encryptPasswordEntry e k iv).notes =
        some (encryptData (e.notes.getD "") k iv)) ∧
    (strTruthy e.notes = false →
      (encryptPasswordEntry e k iv).notes = some (Ct.mk "")) := by
  unfold encryptPasswordEntry
  rcases hn : e.notes with _ | s
  · exact ⟨fun ht => by simp [strTruthy] at ht, fun _ => rfl⟩
  · by_cases hs : s = ""
    · subst hs
      exact ⟨fun ht => by simp [strTruthy] at ht, fun _ => by simp⟩
    · refine ⟨fun _ => by simp [hs], fun hf => ?_⟩
      simp [strTruthy, hs] at hf

/-- Witness for C8 amended: concrete records with present and with absent
    notes. -/
theorem c8_notes_field_witness :
    (encryptPasswordEntry exEntry exKey exIv).notes =
      some (encryptData (exEntry.notes.getD "") exKey exIv) ∧
    (encryptPasswordEntry exEntryNoNotes exKey exIv).notes = some (Ct.mk "") :=
  ⟨(c8_notes_field exEntry exKey exIv).1 (by decide),
   (c8_notes_field exEntryNoNotes exKey exIv).2 (by decide)⟩
